import Mathlib

/-!
Shallow embedding of the adaptive multi-stage retrieval orchestrator
(source: `src/unnamed/part_010`, a Next.js API route).  Pure data flow is
translated directly; external effects are made explicit parameters:

* the LLM planning call together with its JSON extraction is abstracted as an
  `Option ComprehensiveSearchPlan` argument (`none` = call failure or
  unparsable output, i.e. the `catch`/no-`jsonMatch` paths);
* the retrieval backend (one Lambda invocation per `SearchQuery`) is a
  function `SearchQuery → Option SearchResult` (`none` = thrown error or a
  response without the expected body);
* the synthesis LLM response's extracted credibility JSON is an
  `Option (List SourceEvaluation)` (`none` = no fenced block or parse error).

JavaScript numbers are modelled as `ℚ` (scores, weights) and `ℕ` (counts);
`Array` as `List`; `Map`/`Set` as insertion-ordered lists.  Logging
(`addLog`), wall-clock timing fields (`processing_time`, `execution_time`)
and constant diagnostic fields (`type`, `search_performed`, `urls`,
`total_results`, `images`) are omitted: no modelled branch reads them.
-/

namespace RagSearch

/-- JavaScript truthiness of an optional string: `undefined` and `""` are
falsy, every other string is truthy (used for `if (result.summary)` and the
`filter(r => r.summary)` checks). -/
def jsTruthy (o : Option String) : Bool :=
  match o with
  | some s => !(s == "")
  | none => false

/-- Substring test on character lists, mirroring JavaScript
`String.prototype.includes`. -/
def charsInclude (needle : List Char) : List Char → Bool
  | [] => needle.isEmpty
  | c :: rest => needle.isPrefixOf (c :: rest) || charsInclude needle rest

/-- `s.includes(pat)` on strings. -/
def strIncludes (s pat : String) : Bool := charsInclude pat.data s.data

/-- `s.toLowerCase()`. -/
def strToLower (s : String) : String := ⟨s.data.map Char.toLower⟩

/-- Duplicate-dropping fold that keeps the first occurrence, in insertion
order — the behaviour of populating a JavaScript `Set<string>` and reading
it back with `Array.from`. -/
def insertionDedupStr (l : List String) : List String :=
  l.foldl (fun acc s => if acc.contains s then acc else acc ++ [s]) []

/-- One retrieved evidence item (interface `SearchSource`). -/
structure SearchSource where
  id : String
  url : String
  title : String
  snippet : String
  relevance_score : ℚ
  search_query : Option String := none
  query_index : Option ℕ := none
  credibility_score : Option ℚ := none
  is_primary_source : Option Bool := none
  source_type : Option String := none
  language : Option String := none
  citationNumber : Option ℕ := none
  credibility_reasoning : Option String := none
  target_topic : Option String := none
deriving Repr, DecidableEq

/-- Result of one backend call (interface `SearchResult`; constant and
timing fields omitted). -/
structure SearchResult where
  query : String
  summary : Option String := none
  sources : Option (List SearchSource) := none
deriving Repr, DecidableEq

/-- One unit of search work (interface `SearchQuery`); the string-literal
unions `'basic' | 'advanced'` and `'general' | 'news'` are kept as strings. -/
structure SearchQuery where
  query : String
  target_topic : Option String := none
  language : String
  search_depth : String
  max_results : ℕ
  topic : Option String := none
  days : Option ℕ := none
  rationale : String
deriving Repr, DecidableEq

/-- A planned group of queries (interface `SearchStage`). -/
structure SearchStage where
  stage_name : String
  description : String
  target_topics : Option (List String) := none
  queries : List SearchQuery
  execution_condition : String
deriving Repr, DecidableEq

/-- A weighted facet of the question (element type of
`question_analysis.identified_topics`). -/
structure TopicInfo where
  topic : String
  weight : ℚ
  required_info : List String
deriving Repr, DecidableEq

/-- The planner's topic analysis (field `question_analysis`). -/
structure QuestionAnalysis where
  identified_topics : List TopicInfo
  topic_coverage_check : String
deriving Repr, DecidableEq

/-- The planner's full output (interface `ComprehensiveSearchPlan`). -/
structure ComprehensiveSearchPlan where
  question_analysis : Option QuestionAnalysis := none
  stages : List SearchStage
  overall_strategy : String
  expected_outcome : String
  balance_check : Option String := none
deriving Repr, DecidableEq

/-- A stage together with what it produced (interface `StageResult`;
`execution_time` omitted). -/
structure StageResult where
  stage : SearchStage
  results : List SearchResult
  total_sources : ℕ
deriving Repr, DecidableEq

/-- One entry of the credibility-evaluation JSON array the synthesis model
is asked to emit. -/
structure SourceEvaluation where
  index : ℤ
  url : String
  credibility_score : ℚ
  is_primary : Bool
  source_type : String
  reasoning : String
deriving Repr, DecidableEq

/-- The hard-coded fallback plan of `planComprehensiveSearch` (its `catch`
branch): one mandatory stage, one query equal to the raw question, advanced
depth, `max_results` 10, and no `question_analysis`. -/
def fallbackPlan (query : String) : ComprehensiveSearchPlan :=
  { question_analysis := none
    stages := [{ stage_name := "基本検索"
                 description := "基本的な情報収集"
                 target_topics := none
                 queries := [{ query := query
                               target_topic := none
                               language := "ja"
                               search_depth := "advanced"
                               max_results := 10
                               topic := none
                               days := none
                               rationale := "フォールバック検索" }]
                 execution_condition := "必須実行" }]
    overall_strategy := "フォールバック戦略"
    expected_outcome := "基本的な情報収集" }

/-- `planComprehensiveSearch`: the Bedrock call plus JSON extraction is
abstracted into `parsedPlan` (`none` covers both a thrown error and a reply
with no parsable JSON object); on `none` the fallback plan is returned and
no error escapes. -/
def planComprehensiveSearch (parsedPlan : Option ComprehensiveSearchPlan)
    (query : String) : ComprehensiveSearchPlan :=
  match parsedPlan with
  | some plan => plan
  | none => fallbackPlan query

/-- The topic list of a plan: `question_analysis.identified_topics`, empty
when the analysis is absent. -/
def identifiedTopicsOf (plan : ComprehensiveSearchPlan) : List TopicInfo :=
  match plan.question_analysis with
  | some qa => qa.identified_topics
  | none => []

/-- The per-source tagging `executeSearchWithLambda` applies on success:
originating query text, language and target topic. -/
def tagSource (query : SearchQuery) (source : SearchSource) : SearchSource :=
  { source with
    search_query := some query.query
    language := some query.language
    target_topic := query.target_topic }

/-- `executeSearchWithLambda`: on backend success every returned source is
tagged with the originating query's text, language and target topic; on
backend failure (thrown error or missing response body) the query degrades
to an empty result set. -/
def executeSearchWithLambda (backend : SearchQuery → Option SearchResult)
    (query : SearchQuery) : SearchResult :=
  match backend query with
  | some searchData =>
      { searchData with
        sources := searchData.sources.map (fun l => l.map (tagSource query)) }
  | none =>
      { query := query.query
        summary := none
        sources := some [] }

/-- `executeSearchStage`: fan out one backend call per query (the
`Promise.all` keeps results in query order), then aggregate the per-query
source counts. -/
def executeSearchStage (backend : SearchQuery → Option SearchResult)
    (stage : SearchStage) : StageResult :=
  let results := stage.queries.map (executeSearchWithLambda backend)
  let totalSources := results.foldl (fun sum result =>
    sum + (result.sources.getD []).length) 0
  { stage := stage
    results := results
    total_sources := totalSources }

/-- Sum of `total_sources` over a history (the `reduce` at the top of
`shouldExecuteNextStage` and in `performIntegratedSearch`). -/
def totalSourcesOf (stageResults : List StageResult) : ℕ :=
  stageResults.foldl (fun sum stage => sum + stage.total_sources) 0

/-- The `summaryCount` accumulator of `calculateQualityScore`. -/
def summaryCount (stageResults : List StageResult) : ℕ :=
  stageResults.foldl (fun count stage =>
    count + (stage.results.filter (fun r => jsTruthy r.summary)).length) 0

/-- The `queriesWithResults` accumulator of `calculateQualityScore`:
how many per-query results contain at least one source. -/
def queriesWithResults (stageResults : List StageResult) : ℕ :=
  stageResults.foldl (fun count stage =>
    count + (stage.results.filter (fun r =>
      match r.sources with
      | some l => decide (0 < l.length)
      | none => false)).length) 0

/-- The `avgResultsPerQuery` value of `calculateQualityScore`: the mean over
stages of each stage's sources-per-query ratio (division by zero, `NaN` in
JavaScript, is `0` in `ℚ`; both fail the `> 5` comparison). -/
def avgResultsPerQuery (stageResults : List StageResult) : ℚ :=
  (stageResults.foldl (fun sum stage =>
    sum + (if 0 < stage.stage.queries.length then
      (stage.total_sources : ℚ) / stage.stage.queries.length else 0)) 0)
    / stageResults.length

/-- `calculateQualityScore`: each fired factor adds its weight to `score`
and bumps `factors`; the result is `score / factors`, or `0.5` when no
factor fired. -/
def calculateQualityScore (stageResults : List StageResult) : ℚ :=
  let score : ℚ :=
    (if 0 < summaryCount stageResults then (3 : ℚ)/10 else 0)
    + (if 1 < queriesWithResults stageResults then (3 : ℚ)/10 else 0)
    + (if 5 < avgResultsPerQuery stageResults then (2 : ℚ)/5 else 0)
  let factors : ℕ :=
    (if 0 < summaryCount stageResults then 1 else 0)
    + (if 1 < queriesWithResults stageResults then 1 else 0)
    + (if 5 < avgResultsPerQuery stageResults then 1 else 0)
  if 0 < factors then score / (factors : ℚ) else 1/2

/-- A topic paired with how many collected sources are tagged with it. -/
structure TopicCount where
  topic : String
  count : ℕ
deriving Repr, DecidableEq

/-- `calculateTopicCoverage`: for each distinct `target_topic` declared by
the FIRST stage's queries, count the sources across the whole history whose
tag equals it. -/
def calculateTopicCoverage (stageResults : List StageResult) : List TopicCount :=
  let allSources : List SearchSource :=
    stageResults.flatMap (fun stageResult =>
      stageResult.results.flatMap (fun result => result.sources.getD []))
  let firstStageTopics : List String :=
    match stageResults with
    | [] => []
    | sr0 :: _ => insertionDedupStr (sr0.stage.queries.filterMap (·.target_topic))
  firstStageTopics.map (fun topic =>
    { topic := topic
      count := (allSources.filter (fun source =>
        source.target_topic == some topic)).length })

/-- `shouldExecuteNextStage`: the continuation gate.  Rules in code order:
empty history continues; 35 or more sources stops; a stage named `第2段階`
continues on an underrepresented topic, low volume or low quality; a stage
named `第3段階` continues while volume and quality are both below their
caps; anything else stops. -/
def shouldExecuteNextStage (currentStageResults : List StageResult)
    (nextStage : SearchStage) : Bool :=
  let totalSources := totalSourcesOf currentStageResults
  if totalSources = 0 then true
  else if 35 ≤ totalSources then false
  else
    let qualityScore := calculateQualityScore currentStageResults
    let topicCoverage := calculateTopicCoverage currentStageResults
    if strIncludes nextStage.stage_name "第2段階" then
      let underrepresentedTopics := topicCoverage.filter (fun t => t.count < 5)
      if 0 < underrepresentedTopics.length then true
      else if totalSources < 15 then true
      else if 30 ≤ totalSources ∧ (7 : ℚ)/10 < qualityScore then false
      else decide (qualityScore < (3 : ℚ)/5)
    else if strIncludes nextStage.stage_name "第3段階" then
      decide (totalSources < 35 ∧ qualityScore < (4 : ℚ)/5)
    else
      false

/-- The source-flattening step at the top of `generateIntegratedResponse`:
every source of every stage result is collected in order, its `id` rewritten
to `s<stage>_r<result>_<source>` and its `query_index` set to the stage
index. -/
def collectAllSources (allResults : List StageResult) : List SearchSource :=
  allResults.enum.flatMap (fun p =>
    p.2.results.enum.flatMap (fun q =>
      (q.2.sources.getD []).enum.map (fun r =>
        { r.2 with
          id := "s" ++ toString p.1 ++ "_r" ++ toString q.1 ++ "_" ++ toString r.1
          query_index := some p.1 })))

/-- The `uniqueSources` map of `generateIntegratedResponse`: iterate in
order, insert a source only when its URL is unseen (a JavaScript `Map` whose
`values()` come back in insertion order). -/
def dedupByUrl (sources : List SearchSource) : List SearchSource :=
  sources.foldl (fun acc source =>
    if acc.any (fun t => t.url == source.url) then acc else acc ++ [source]) []

/-- `estimateCredibility`: the rule-based credibility fallback, a cascade of
URL-substring tests. -/
def estimateCredibility (source : SearchSource) : ℚ :=
  let url := strToLower source.url
  if strIncludes url ".gov" || strIncludes url ".edu" || strIncludes url "official" then 9/10
  else if strIncludes url "nature.com" || strIncludes url "science." || strIncludes url "ieee" then 17/20
  else if strIncludes url "bbc.com" || strIncludes url "reuters" || strIncludes url "ap.org" then 4/5
  else if strIncludes url "nikkei" || strIncludes url "bloomberg" || strIncludes url "wsj" then 3/4
  else if strIncludes url "blog" || strIncludes url "medium" then 2/5
  else if strIncludes url "wikipedia" then 3/5
  else 1/2

/-- `isPrimarySource`: URL/title keyword test for primary sources. -/
def isPrimarySource (source : SearchSource) : Bool :=
  let url := strToLower source.url
  let title := strToLower source.title
  strIncludes url ".gov" ||
    strIncludes url "official" ||
    strIncludes url "press-release" ||
    strIncludes title "official" ||
    strIncludes title "press release" ||
    strIncludes title "announcement"

/-- `classifySourceType`: URL keyword cascade; the string-literal union
result type is kept as a string. -/
def classifySourceType (source : SearchSource) : String :=
  let url := strToLower source.url
  if strIncludes url ".gov" || strIncludes url "official" then "official"
  else if strIncludes url ".edu" || strIncludes url "nature.com" || strIncludes url "ieee" then "academic"
  else if strIncludes url "news" || strIncludes url "bbc" || strIncludes url "reuters" then "news"
  else if strIncludes url "blog" || strIncludes url "medium" then "blog"
  else if strIncludes url "twitter" || strIncludes url "facebook" || strIncludes url "linkedin" then "social"
  else "unknown"

/-- The per-source fallback branch of the evaluation merge in
`generateIntegratedResponse`: rule-based credibility, primary-source flag,
source type and citation number `index + 1`. -/
def fallbackAnnotate (index : ℕ) (source : SearchSource) : SearchSource :=
  { source with
    credibility_score := some (estimateCredibility source)
    is_primary_source := some (isPrimarySource source)
    source_type := some (classifySourceType source)
    citationNumber := some (index + 1) }

/-- The evaluation-merge step of `generateIntegratedResponse`.  `evalsOpt`
abstracts the fenced-JSON extraction from the model's reply: `none` covers
both a missing ```json block and a `JSON.parse` failure, and both of those
code paths map every source through the rule-based fallback.  With a parsed
array, each source takes the entry whose `index` equals its 1-based
position, falling back per source when no entry matches. -/
def annotateSources (evalsOpt : Option (List SourceEvaluation))
    (topSources : List SearchSource) : List SearchSource :=
  match evalsOpt with
  | some evaluations =>
      topSources.enum.map (fun p =>
        match evaluations.find? (fun e => e.index == (p.1 : ℤ) + 1) with
        | some evaluation =>
            { p.2 with
              credibility_score := some evaluation.credibility_score
              is_primary_source := some evaluation.is_primary
              source_type := some evaluation.source_type
              credibility_reasoning := some evaluation.reasoning
              citationNumber := some (p.1 + 1) }
        | none => fallbackAnnotate p.1 p.2)
  | none =>
      topSources.enum.map (fun p => fallbackAnnotate p.1 p.2)

/-- The `totalGuaranteed` slot count of `selectBalancedSources`:
`Math.floor(limit * 0.7)`. -/
def totalGuaranteedSlots (limit : ℕ) : ℕ :=
  (Int.floor ((limit : ℚ) * (7/10))).toNat

/-- One topic's guaranteed quota when a weighted topic analysis is present:
`Math.ceil(totalGuaranteed * weight)`. -/
def topicQuota (limit : ℕ) (weight : ℚ) : ℤ :=
  Int.ceil ((totalGuaranteedSlots limit : ℚ) * weight)

/-- The `topicQuotas` map of `selectBalancedSources` as an association list
in insertion order: weight-proportional quotas when the plan's topic
analysis is present and non-empty, otherwise an even split over the topics
extracted from the queries. -/
def topicQuotasOf (limit : ℕ) (topicAnalysis : Option (List TopicInfo))
    (topics : List String) : List (String × ℤ) :=
  match topicAnalysis with
  | some l =>
      if 0 < l.length then
        l.map (fun topicInfo => (topicInfo.topic, topicQuota limit topicInfo.weight))
      else
        topics.map (fun topic =>
          (topic, Int.ceil ((totalGuaranteedSlots limit : ℚ) / (max topics.length 1 : ℕ))))
  | none =>
      topics.map (fun topic =>
        (topic, Int.ceil ((totalGuaranteedSlots limit : ℚ) / (max topics.length 1 : ℕ))))

/-- The sort key of phase 1 of `selectBalancedSources`:
`credibility_score || relevance_score` with JavaScript falsiness, so a
missing OR zero credibility score falls back to the relevance score. -/
def scoreOf (s : SearchSource) : ℚ :=
  match s.credibility_score with
  | some c => if c = 0 then s.relevance_score else c
  | none => s.relevance_score

/-- `selectBalancedSources`: phase 1 walks the topics in order, sorting each
topic's unused sources by `scoreOf` descending and taking up to that topic's
quota (`quota || 2`, so an absent or zero quota becomes 2) while the global
`limit` is not reached; phase 2 fills the remaining slots from the unused
pool by relevance descending. -/
def selectBalancedSources (sources : List SearchSource)
    (queries : List SearchQuery) (limit : ℕ)
    (topicAnalysis : Option (List TopicInfo)) : List SearchSource :=
  let topics := insertionDedupStr (queries.filterMap (·.target_topic))
  let topicQuotas := topicQuotasOf limit topicAnalysis topics
  let phase1 := topics.foldl (fun state topic =>
    let quotaRaw := ((topicQuotas.reverse.find? (fun p => p.1 == topic)).map Prod.snd).getD 0
    let quota : ℕ := if quotaRaw = 0 then 2 else quotaRaw.toNat
    let topicSources :=
      ((sources.filter (fun s =>
          (s.target_topic == some topic ||
            queries.any (fun q =>
              q.target_topic == some topic && s.search_query == some q.query)) &&
          !(state.2.contains s.url))).mergeSort
        (fun a b => decide (scoreOf b ≤ scoreOf a))).take quota
    topicSources.foldl (fun st source =>
      if st.1.length < limit then (st.1 ++ [source], st.2 ++ [source.url]) else st)
      state)
    (([] : List SearchSource), ([] : List String))
  let remaining :=
    (sources.filter (fun s => !(phase1.2.contains s.url))).mergeSort
      (fun a b => decide (b.relevance_score ≤ a.relevance_score))
  (remaining.foldl (fun st source =>
    if st.1.length < limit then (st.1 ++ [source], st.2 ++ [source.url]) else st)
    phase1).1

/-- The stage loop of `performIntegratedSearch` (steps 2 of the orchestrator),
with the backend abstracted: stage `i` is skipped when `i > 0` and the gate
says stop; after an executed stage the loop breaks early when at least 40
sources were collected with quality above `0.7`. -/
def runStagesFrom (backend : SearchQuery → Option SearchResult) :
    List SearchStage → ℕ → List StageResult → List StageResult
  | [], _, acc => acc
  | stage :: rest, i, acc =>
    if 0 < i ∧ shouldExecuteNextStage acc stage = false then
      runStagesFrom backend rest (i + 1) acc
    else
      let acc2 := acc ++ [executeSearchStage backend stage]
      if 40 ≤ totalSourcesOf acc2 ∧ (7 : ℚ)/10 < calculateQualityScore acc2 then
        acc2
      else
        runStagesFrom backend rest (i + 1) acc2

/-- The whole stage loop of `performIntegratedSearch`, starting from index 0
with an empty history. -/
def runStages (backend : SearchQuery → Option SearchResult)
    (stages : List SearchStage) : List StageResult :=
  runStagesFrom backend stages 0 []

/-! ### Generic helper lemmas -/

theorem foldl_add_eq {M α : Type} [AddCommMonoid M] (f : α → M) (l : List α) (n : M) :
    l.foldl (fun acc x => acc + f x) n = n + (l.map f).sum := by
  induction l generalizing n with
  | nil => simp
  | cons a t ih => simp [ih, add_assoc]

theorem map_sum_pos_iff (f : α → ℕ) (l : List α) :
    0 < (l.map f).sum ↔ l.any (fun x => 0 < f x) = true := by
  induction l with
  | nil => simp
  | cons a t ih => simp [add_pos_iff, ih]

/-! ### Facts about the quality score -/

/-- The quality score can only take the values `0.3`, `0.3/1`, `0.35`,
`0.4`, `1/3` of the fired-weight sums, or the default `0.5`; all are at most
one half. -/
theorem qualityScore_le_half (h : List StageResult) : calculateQualityScore h ≤ 1/2 := by
  unfold calculateQualityScore
  by_cases h1 : 0 < summaryCount h <;>
    by_cases h2 : 1 < queriesWithResults h <;>
      by_cases h3 : 5 < avgResultsPerQuery h <;>
        simp [h1, h2, h3] <;> norm_num

/-- A stage whose name matches neither `第2段階` nor `第3段階` is rejected
by the gate once the history is non-empty and below the volume cap. -/
theorem gate_default_false (hist : List StageResult) (stage : SearchStage)
    (h0 : totalSourcesOf hist ≠ 0) (h35 : totalSourcesOf hist < 35)
    (hn2 : strIncludes stage.stage_name "第2段階" = false)
    (hn3 : strIncludes stage.stage_name "第3段階" = false) :
    shouldExecuteNextStage hist stage = false := by
  unfold shouldExecuteNextStage
  simp [h0, Nat.not_le.mpr h35, hn2, hn3]

/-! ### Concrete fixtures used by witnesses and counterexamples -/

/-- A plain untagged source with an integral relevance score. -/
def srcPlain : SearchSource :=
  { id := "p1", url := "https://example.com/plain", title := "資料",
    snippet := "内容", relevance_score := 1 }

/-- A fallback-style base query without a target topic. -/
def queryBase : SearchQuery :=
  { query := "基礎調査", language := "ja", search_depth := "advanced",
    max_results := 10, rationale := "基礎情報" }

/-- A query targeting topic `A`. -/
def queryTopicA : SearchQuery :=
  { query := "Aの調査", target_topic := some "A", language := "ja",
    search_depth := "advanced", max_results := 10, rationale := "Aの基礎" }

/-- A mandatory first stage built from `queryBase`. -/
def stage1Plain : SearchStage :=
  { stage_name := "第1段階：基礎情報収集", description := "基礎",
    queries := [queryBase], execution_condition := "必須実行" }

/-- A mandatory first stage that declares topic `A`. -/
def stage1TopicA : SearchStage :=
  { stage_name := "第1段階：基礎情報収集", description := "基礎",
    queries := [queryTopicA], execution_condition := "必須実行" }

/-- A conditional depth-deepening (`第2段階`) stage. -/
def stage2Spec : SearchStage :=
  { stage_name := "第2段階：不足分野の深堀り", description := "深堀り",
    queries := [queryTopicA], execution_condition := "条件付き実行" }

/-- A conditional specialization (`第3段階`) stage. -/
def stage3Spec : SearchStage :=
  { stage_name := "第3段階：特化情報収集", description := "特化検索",
    queries := [queryBase], execution_condition := "条件付き実行" }

/-- A one-stage history holding exactly 34 sources. -/
def hist34 : List StageResult :=
  [{ stage := stage1Plain
     results := [{ query := "基礎調査", summary := none,
                   sources := some (List.replicate 34 srcPlain) }]
     total_sources := 34 }]

/-- A one-stage history holding exactly 35 sources. -/
def hist35 : List StageResult :=
  [{ stage := stage1Plain
     results := [{ query := "基礎調査", summary := none,
                   sources := some (List.replicate 35 srcPlain) }]
     total_sources := 35 }]

/-- A one-stage history holding 42 sources. -/
def hist42 : List StageResult :=
  [{ stage := stage1Plain
     results := [{ query := "基礎調査", summary := none,
                   sources := some (List.replicate 42 srcPlain) }]
     total_sources := 42 }]

/-- A source tagged with topic `A`. -/
def srcTaggedA : SearchSource :=
  { id := "a1", url := "https://example.com/a1", title := "A記事",
    snippet := "Aの内容", relevance_score := 1,
    search_query := some "Aの調査", target_topic := some "A" }

/-- A one-stage history with a single source tagged `A` (topic `A` is
underrepresented: 1 < 5). -/
def histC7 : List StageResult :=
  [{ stage := stage1TopicA
     results := [{ query := "Aの調査", summary := none,
                   sources := some [srcTaggedA] }]
     total_sources := 1 }]

/-! ### C6 — the 35-source stop rule -/

/-- C6: with at least 35 total sources the gate answers `false` for every
next stage (in particular at exactly 35), while a 34-source history is not
forced to stop by the volume rule: the concrete `hist34` still continues
into a `第3段階` stage. -/
theorem gate_stops_at_35_not_at_34 :
    (∀ (hist : List StageResult) (stage : SearchStage),
      35 ≤ totalSourcesOf hist → shouldExecuteNextStage hist stage = false) ∧
    (totalSourcesOf hist34 = 34 ∧ shouldExecuteNextStage hist34 stage3Spec = true) := by
  constructor
  · intro hist stage h
    unfold shouldExecuteNextStage
    have h0 : ¬(totalSourcesOf hist = 0) := by omega
    simp [h0, h]
  · refine ⟨by decide, ?_⟩
    unfold shouldExecuteNextStage
    have e : totalSourcesOf hist34 = 34 := by decide
    have hn2 : strIncludes stage3Spec.stage_name "第2段階" = false := by decide
    have hn3 : strIncludes stage3Spec.stage_name "第3段階" = true := by decide
    simp [e, hn2, hn3]
    exact lt_of_le_of_lt (qualityScore_le_half hist34) (by norm_num)

/-- Witness for C6: the universal part applied at the concrete 35-source
history. -/
theorem gate_stops_at_35_not_at_34_witness :
    35 ≤ totalSourcesOf hist35 ∧ shouldExecuteNextStage hist35 stage3Spec = false :=
  ⟨by decide, gate_stops_at_35_not_at_34.1 hist35 stage3Spec (by decide)⟩

/-! ### C7 — underrepresented topics force continuation -/

/-- C7: for a conditional next stage named as depth-deepening (`第2段階`)
or specialization (`第3段階`), a history with between 1 and 34 sources and
some stage-1 topic tagged on fewer than 5 sources makes the gate answer
`true`. -/
theorem underrepresented_topic_forces_continue :
    ∀ (hist : List StageResult) (stage : SearchStage),
      stage.execution_condition = "条件付き実行" →
      (strIncludes stage.stage_name "第2段階" = true ∨
        strIncludes stage.stage_name "第3段階" = true) →
      0 < totalSourcesOf hist → totalSourcesOf hist < 35 →
      (∃ t ∈ calculateTopicCoverage hist, t.count < 5) →
      shouldExecuteNextStage hist stage = true := by
  intro hist stage _ hname hpos hlt hunder
  unfold shouldExecuteNextStage
  have h0 : ¬(totalSourcesOf hist = 0) := by omega
  have hle : ¬(35 ≤ totalSourcesOf hist) := by omega
  by_cases h2 : strIncludes stage.stage_name "第2段階"
  · obtain ⟨t, ht, htc⟩ := hunder
    have hmem : t ∈ (calculateTopicCoverage hist).filter (fun t => t.count < 5) := by
      simp [List.mem_filter, ht, htc]
    have hfil : 0 < ((calculateTopicCoverage hist).filter (fun t => t.count < 5)).length :=
      List.length_pos.mpr (List.ne_nil_of_mem hmem)
    simp [h0, hle, h2, hfil]
  · have h3 : strIncludes stage.stage_name "第3段階" = true := by
      rcases hname with h | h
      · exact absurd h h2
      · exact h
    simp [h0, hle, h2, h3]
    exact ⟨by omega, lt_of_le_of_lt (qualityScore_le_half hist) (by norm_num)⟩

/-- Witness for C7 at a concrete underrepresented history and a conditional
`第2段階` stage. -/
theorem underrepresented_topic_forces_continue_witness :
    (stage2Spec.execution_condition = "条件付き実行" ∧
      strIncludes stage2Spec.stage_name "第2段階" = true ∧
      0 < totalSourcesOf histC7 ∧ totalSourcesOf histC7 < 35 ∧
      (∃ t ∈ calculateTopicCoverage histC7, t.count < 5)) ∧
    shouldExecuteNextStage histC7 stage2Spec = true := by
  refine ⟨⟨rfl, by decide, by decide, by decide, by decide⟩, ?_⟩
  exact underrepresented_topic_forces_continue histC7 stage2Spec rfl
    (Or.inl (by decide)) (by decide) (by decide) (by decide)

/-! ### C10 — the quality score is bounded by one half -/

/-- C10: the quality score never exceeds `0.5`, so the two stop conditions
guarded by quality above `0.7` (the `第2段階` stop rule inside
`shouldExecuteNextStage` and the post-stage break in
`performIntegratedSearch` requiring 40 sources with quality above `0.7`)
can never fire. -/
theorem quality_le_half_stop_branches_unreachable :
    ∀ hist : List StageResult,
      calculateQualityScore hist ≤ 1/2 ∧
      ¬(30 ≤ totalSourcesOf hist ∧ (7 : ℚ)/10 < calculateQualityScore hist) ∧
      ¬(40 ≤ totalSourcesOf hist ∧ (7 : ℚ)/10 < calculateQualityScore hist) := by
  intro hist
  have hq := qualityScore_le_half hist
  refine ⟨hq, fun hc => ?_, fun hc => ?_⟩ <;> linarith [hc.2]

/-- Witness for C10 at a concrete 42-source history: even past the
40-source mark the break's quality condition stays unsatisfiable. -/
theorem quality_le_half_stop_branches_unreachable_witness :
    calculateQualityScore hist42 ≤ 1/2 ∧
    ¬(30 ≤ totalSourcesOf hist42 ∧ (7 : ℚ)/10 < calculateQualityScore hist42) ∧
    ¬(40 ≤ totalSourcesOf hist42 ∧ (7 : ℚ)/10 < calculateQualityScore hist42) :=
  quality_le_half_stop_branches_unreachable hist42

/-! ### C1 — deduplication keeps the first-seen copy, not the best-scored -/

/-- Characterization of the `uniqueSources` fold: looking up any URL in the
folded map finds exactly what a first-match search over the not-yet-folded
input (prefixed by the accumulator) finds. -/
theorem dedupByUrl_foldl_find? :
    ∀ (l acc : List SearchSource) (u : String),
      ((l.foldl (fun acc source =>
          if acc.any (fun t => t.url == source.url) then acc else acc ++ [source]) acc).find?
        (fun s => s.url == u)) =
      ((acc ++ l).find? (fun s => s.url == u)) := by
  intro l
  induction l with
  | nil => intro acc u; simp
  | cons s t ih =>
    intro acc u
    simp only [List.foldl_cons]
    by_cases hs : acc.any (fun x => x.url == s.url)
    · rw [if_pos hs, ih]
      rw [List.find?_append, List.find?_append]
      cases hacc : acc.find? (fun x => x.url == u) with
      | some v => simp
      | none =>
        simp only [Option.none_or]
        by_cases hsu : s.url = u
        · exfalso
          obtain ⟨x, hx, hxu⟩ := List.any_eq_true.mp hs
          have hxu' : x.url = s.url := by simpa using hxu
          have : ¬(x.url == u) = true := List.find?_eq_none.mp hacc x hx
          exact this (by simp [hxu', hsu])
        · have hns : ¬((fun x : SearchSource => x.url == u) s = true) := by simpa using hsu
          have h2 : List.find? (fun x : SearchSource => x.url == u) (s :: t) =
              List.find? (fun x : SearchSource => x.url == u) t :=
            List.find?_cons_of_neg t hns
          rw [h2]
    · rw [if_neg hs, ih]
      simp

/-- The folded map never holds two sources with the same URL. -/
theorem dedupByUrl_foldl_nodup :
    ∀ (l acc : List SearchSource),
      ((acc.map (fun s => s.url)).Nodup) →
      (((l.foldl (fun acc source =>
          if acc.any (fun t => t.url == source.url) then acc else acc ++ [source]) acc).map
        (fun s => s.url)).Nodup) := by
  intro l
  induction l with
  | nil => intro acc h; simpa
  | cons s t ih =>
    intro acc h
    simp only [List.foldl_cons]
    by_cases hs : acc.any (fun x => x.url == s.url)
    · rw [if_pos hs]; exact ih acc h
    · rw [if_neg hs]
      apply ih
      rw [List.map_append, List.nodup_append]
      refine ⟨h, by simp, ?_⟩
      intro a ha hb
      simp only [List.map_cons, List.map_nil, List.mem_singleton] at hb
      subst hb
      obtain ⟨x, hx, hxe⟩ := List.mem_map.mp ha
      have : acc.any (fun t => t.url == s.url) = true :=
        List.any_eq_true.mpr ⟨x, hx, by simp [hxe]⟩
      simp [this] at hs

/-- C1 amended: during global deduplication the source retained for each
URL is the FIRST one encountered in iteration order (its relevance score is
ignored), and the deduplicated pool has pairwise distinct URLs. -/
theorem dedup_keeps_first_occurrence :
    ∀ (hist : List StageResult) (u : String),
      ((dedupByUrl (collectAllSources hist)).find? (fun s => s.url == u)) =
        ((collectAllSources hist).find? (fun s => s.url == u)) ∧
      (((dedupByUrl (collectAllSources hist)).map (fun s => s.url)).Nodup) := by
  intro hist u
  constructor
  · have := dedupByUrl_foldl_find? (collectAllSources hist) [] u
    simpa [dedupByUrl] using this
  · exact dedupByUrl_foldl_nodup (collectAllSources hist) [] (by simp)

/-- First copy of a duplicated URL, with the LOWER relevance score. -/
def srcDupLow : SearchSource :=
  { id := "d1", url := "https://example.com/dup", title := "重複1",
    snippet := "低スコア", relevance_score := 0 }

/-- Second copy of the same URL, with the HIGHER relevance score. -/
def srcDupHigh : SearchSource :=
  { id := "d2", url := "https://example.com/dup", title := "重複2",
    snippet := "高スコア", relevance_score := 1 }

/-- History whose flattened source pool holds the low-score copy before the
high-score copy of the same URL. -/
def histDup : List StageResult :=
  [{ stage := stage1Plain
     results := [{ query := "基礎調査", summary := none,
                   sources := some [srcDupLow, srcDupHigh] }]
     total_sources := 2 }]

/-- Counterexample to C1 as stated: the pool has two sources with the same
URL and relevance scores 0 and 1, yet the deduplicated pool retains the
score-0 copy (the first seen), not the score-1 maximum. -/
theorem dedup_drops_higher_relevance_copy :
    ((collectAllSources histDup).map (fun s => (s.url, s.relevance_score))) =
      [("https://example.com/dup", 0), ("https://example.com/dup", 1)] ∧
    ((dedupByUrl (collectAllSources histDup)).map (fun s => s.relevance_score)) = [0] ∧
    ¬((0 : ℚ) = 1) := by
  refine ⟨rfl, rfl, by norm_num⟩

/-! ### C2 — the gate is consulted for every stage after the first -/

/-- The stage loop only ever appends to its accumulated history. -/
theorem runStagesFrom_acc_prefix (backend : SearchQuery → Option SearchResult) :
    ∀ (stages : List SearchStage) (i : ℕ) (acc : List StageResult),
      ∃ tail, runStagesFrom backend stages i acc = acc ++ tail := by
  intro stages
  induction stages with
  | nil => intro i acc; exact ⟨[], by simp [runStagesFrom]⟩
  | cons s t ih =>
    intro i acc
    unfold runStagesFrom
    by_cases hc : 0 < i ∧ shouldExecuteNextStage acc s = false
    · rw [if_pos hc]; exact ih (i + 1) acc
    · rw [if_neg hc]
      by_cases hb : 40 ≤ totalSourcesOf (acc ++ [executeSearchStage backend s]) ∧
          (7 : ℚ)/10 < calculateQualityScore (acc ++ [executeSearchStage backend s])
      · rw [if_pos hb]
        exact ⟨[executeSearchStage backend s], rfl⟩
      · rw [if_neg hb]
        obtain ⟨tail, ht⟩ := ih (i + 1) (acc ++ [executeSearchStage backend s])
        exact ⟨[executeSearchStage backend s] ++ tail, by rw [ht]; simp⟩

/-- C2 amended: the first stage always executes, but every stage at a later
index is submitted to the gate REGARDLESS of its execution-condition flag:
whenever `shouldExecuteNextStage` answers `false` after the first stage, the
second stage is skipped even when it is marked mandatory (`必須実行`). -/
theorem gate_applies_to_every_later_stage :
    (∀ (backend : SearchQuery → Option SearchResult) (s0 : SearchStage)
        (rest : List SearchStage),
      ∃ tail, runStages backend (s0 :: rest) = executeSearchStage backend s0 :: tail) ∧
    (∀ (backend : SearchQuery → Option SearchResult) (s0 s1 : SearchStage),
      s1.execution_condition = "必須実行" →
      shouldExecuteNextStage [executeSearchStage backend s0] s1 = false →
      runStages backend [s0, s1] = [executeSearchStage backend s0]) := by
  constructor
  · intro backend s0 rest
    unfold runStages runStagesFrom
    rw [if_neg (by simp)]
    simp only [List.nil_append]
    by_cases hb : 40 ≤ totalSourcesOf [executeSearchStage backend s0] ∧
        (7 : ℚ)/10 < calculateQualityScore [executeSearchStage backend s0]
    · rw [if_pos hb]
      exact ⟨[], rfl⟩
    · rw [if_neg hb]
      obtain ⟨tail, ht⟩ := runStagesFrom_acc_prefix backend rest 1 [executeSearchStage backend s0]
      exact ⟨tail, by rw [ht]; simp⟩
  · intro backend s0 s1 _ hgate
    unfold runStages runStagesFrom
    rw [if_neg (by simp)]
    simp only [List.nil_append]
    have hq : ¬(40 ≤ totalSourcesOf [executeSearchStage backend s0] ∧
        (7 : ℚ)/10 < calculateQualityScore [executeSearchStage backend s0]) := by
      rintro ⟨-, hq⟩
      have := qualityScore_le_half [executeSearchStage backend s0]
      linarith
    rw [if_neg hq]
    unfold runStagesFrom
    rw [if_pos ⟨Nat.one_pos, hgate⟩]
    rfl

/-- Backend stub for the C2 scenario: the base query returns one source,
everything else returns none. -/
def backendC2 : SearchQuery → Option SearchResult := fun q =>
  if q.query == "基礎調査" then
    some { query := "基礎調査", summary := none, sources := some [srcPlain] }
  else
    some { query := q.query, summary := none, sources := some [] }

/-- A MANDATORY second stage whose name matches neither gate pattern. -/
def stageExtraMandatory : SearchStage :=
  { stage_name := "追加検索", description := "追加の調査",
    queries := [queryTopicA], execution_condition := "必須実行" }

/-- Counterexample to C2 as stated: `stageExtraMandatory` is marked
mandatory, yet the orchestrator consults the gate for it (it is at index 1)
and skips it — the executed history contains only the first stage. -/
theorem mandatory_stage_skipped_by_gate :
    stageExtraMandatory.execution_condition = "必須実行" ∧
    ((runStages backendC2 [stage1Plain, stageExtraMandatory]).map
      (fun sr => sr.stage.stage_name)) = ["第1段階：基礎情報収集"] := by
  exact ⟨rfl, by decide⟩

/-- Witness for C2 amended at the concrete scenario: the gate rejects the
mandatory second stage and the loop output is the first stage alone. -/
theorem gate_applies_to_every_later_stage_witness :
    (stageExtraMandatory.execution_condition = "必須実行" ∧
      shouldExecuteNextStage [executeSearchStage backendC2 stage1Plain]
        stageExtraMandatory = false) ∧
    runStages backendC2 [stage1Plain, stageExtraMandatory] =
      [executeSearchStage backendC2 stage1Plain] := by
  have hgate : shouldExecuteNextStage [executeSearchStage backendC2 stage1Plain]
      stageExtraMandatory = false := by decide
  exact ⟨⟨rfl, hgate⟩,
    gate_applies_to_every_later_stage.2 backendC2 stage1Plain stageExtraMandatory rfl hgate⟩

/-! ### C3 — what the quality score actually computes -/

/-- Modelled from C3's WORDING, not from the code, for comparison: the
average over all three signals, with signal (c) scaled continuously by
`min 1 (avgSourcesPerQuery / 5)` and `avgSourcesPerQuery` computed as total
sources over total queries. -/
def claimedQualityScore (stageResults : List StageResult) : ℚ :=
  let totalQueries : ℕ := (stageResults.map (fun sr => sr.stage.queries.length)).sum
  let avgSourcesPerQuery : ℚ := (totalSourcesOf stageResults : ℚ) / (totalQueries : ℚ)
  ((if stageResults.any (fun sr => sr.results.any (fun r => jsTruthy r.summary)) then (3 : ℚ)/10 else 0)
    + (if 1 < (stageResults.flatMap (fun sr => sr.results)).countP (fun r =>
          match r.sources with
          | some l => decide (0 < l.length)
          | none => false) then (3 : ℚ)/10 else 0)
    + (2/5) * min 1 (avgSourcesPerQuery / 5)) / 3

/-- The amended description of the quality score: the sum of the FIRED
weights divided by the number of fired factors — (a) `0.3` fires when some
result has a truthy summary, (b) `0.3` fires when more than one per-query
result holds at least one source, (c) `0.4` fires (binary, not scaled) when
the per-stage sources-per-query ratios average above 5 — and `0.5` when no
factor fires. -/
def amendedQualityScore (stageResults : List StageResult) : ℚ :=
  let fired : List ℚ :=
    (if stageResults.any (fun sr => sr.results.any (fun r => jsTruthy r.summary)) then
       [(3 : ℚ)/10] else [])
      ++ (if 1 < (stageResults.flatMap (fun sr => sr.results)).countP (fun r =>
            match r.sources with
            | some l => decide (0 < l.length)
            | none => false) then [(3 : ℚ)/10] else [])
      ++ (if 5 < ((stageResults.map (fun sr =>
            if 0 < sr.stage.queries.length then
              (sr.total_sources : ℚ) / sr.stage.queries.length
            else 0)).sum) / (stageResults.length : ℚ) then [(2 : ℚ)/5] else [])
  if 0 < fired.length then fired.sum / (fired.length : ℚ) else 1/2

/-- The summary counter is positive exactly when some result has a truthy
summary. -/
theorem summaryCount_pos_iff (h : List StageResult) :
    0 < summaryCount h ↔
      (h.any (fun sr => sr.results.any (fun r => jsTruthy r.summary))) = true := by
  unfold summaryCount
  rw [foldl_add_eq, Nat.zero_add, map_sum_pos_iff]
  simp [List.any_eq_true, ← List.countP_eq_length_filter, List.countP_pos_iff]

/-- The productive-query counter equals a `countP` over the flattened
per-query results. -/
theorem queriesWithResults_eq_countP (h : List StageResult) :
    queriesWithResults h = (h.flatMap (fun sr => sr.results)).countP (fun r =>
      match r.sources with
      | some l => decide (0 < l.length)
      | none => false) := by
  unfold queriesWithResults
  rw [foldl_add_eq, Nat.zero_add]
  induction h with
  | nil => simp
  | cons a t ih =>
    simp only [List.map_cons, List.sum_cons, List.flatMap_cons, List.countP_append]
    rw [ih]
    simp [List.countP_eq_length_filter]

/-- The mean sources-per-query value as a map-sum. -/
theorem avgResultsPerQuery_eq (h : List StageResult) :
    avgResultsPerQuery h =
      ((h.map (fun sr =>
        if 0 < sr.stage.queries.length then
          (sr.total_sources : ℚ) / sr.stage.queries.length
        else 0)).sum) / (h.length : ℚ) := by
  unfold avgResultsPerQuery
  rw [foldl_add_eq, zero_add]

/-- C3 amended: the quality score is exactly the fired-weights sum divided
by the fired-factor count, with the binary factor conditions above and
default `0.5` — not the three-signal average of the claim. -/
theorem calculateQualityScore_eq_amended :
    ∀ h : List StageResult, calculateQualityScore h = amendedQualityScore h := by
  intro h
  unfold calculateQualityScore amendedQualityScore
  rw [← queriesWithResults_eq_countP, ← avgResultsPerQuery_eq]
  simp only [← summaryCount_pos_iff]
  by_cases c1 : 0 < summaryCount h <;>
    by_cases c2 : 1 < queriesWithResults h <;>
      by_cases c3 : 5 < avgResultsPerQuery h <;>
        · simp [c1, c2, c3]
          try norm_num

/-- History with one stage, one query, one summary-less result holding
three sources. -/
def histQS : List StageResult :=
  [{ stage := stage1Plain
     results := [{ query := "基礎調査", summary := none,
                   sources := some [srcPlain, srcPlain, srcPlain] }]
     total_sources := 3 }]

/-- Counterexample to C3 as stated: on `histQS` the code returns the
no-factor default `0.5`, while the claimed three-signal average would be
`(0 + 0 + 0.4 * min 1 ((3/1)/5)) / 3 = 2/25`. -/
theorem quality_score_differs_from_claimed :
    calculateQualityScore histQS = 1/2 ∧
    claimedQualityScore histQS = 2/25 ∧
    ¬((1 : ℚ)/2 = 2/25) := by
  refine ⟨?_, ?_, by norm_num⟩
  · rw [calculateQualityScore]
    have h1 : summaryCount histQS = 0 := by
      simp [summaryCount, histQS, jsTruthy]
    have h2 : queriesWithResults histQS = 1 := by
      simp [queriesWithResults, histQS]
    have h3 : avgResultsPerQuery histQS = 3 := by
      rw [avgResultsPerQuery_eq]
      simp [histQS, stage1Plain]
    rw [h1, h2, h3]
    norm_num
  · rw [claimedQualityScore]
    have h0 : totalSourcesOf histQS = 3 := by decide
    have h1 : ((histQS.map (fun sr => sr.stage.queries.length)).sum) = 1 := by decide
    have h2 : ¬((histQS.any (fun sr => sr.results.any (fun r => jsTruthy r.summary))) = true) := by
      decide
    have h3 : (histQS.flatMap (fun sr => sr.results)).countP (fun r =>
        match r.sources with
        | some l => decide (0 < l.length)
        | none => false) = 1 := by decide
    simp only [h0, h1, h2, h3, if_false]
    have hmin : min (1 : ℚ) ((3 : ℚ) / (1 : ℕ) / 5) = 3/5 := by
      rw [min_eq_right] <;> norm_num
    simp [hmin]
    norm_num

/-! ### C4 — the planning fallback -/

/-- C4 amended: on planning failure (`none`) the planner returns, without
raising, the fallback plan: exactly one MANDATORY stage holding one query
equal to the raw question with advanced depth and `max_results` 10 — but
the plan carries NO topic list (`question_analysis` is absent), so it has
zero Topics rather than a single weight-1.0 Topic. -/
theorem fallback_plan_shape (q : String) :
    planComprehensiveSearch none q = fallbackPlan q ∧
    (fallbackPlan q).stages =
      [{ stage_name := "基本検索", description := "基本的な情報収集",
         queries := [{ query := q, language := "ja", search_depth := "advanced",
                       max_results := 10, rationale := "フォールバック検索" }],
         execution_condition := "必須実行" }] ∧
    identifiedTopicsOf (fallbackPlan q) = [] :=
  ⟨rfl, rfl, rfl⟩

/-- Counterexample to C4 as stated: the plan returned on planning failure
has ZERO Topics (no weight-1.0 Topic exists in it), although it does have
its single mandatory stage. -/
theorem fallback_plan_has_no_topics :
    (identifiedTopicsOf (planComprehensiveSearch none "テスト質問")).length = 0 ∧
    (planComprehensiveSearch none "テスト質問").stages.length = 1 ∧
    ((planComprehensiveSearch none "テスト質問").stages.map
      (fun st => st.execution_condition)) = ["必須実行"] :=
  ⟨rfl, rfl, rfl⟩

/-! ### C5 — guaranteed-slot quotas -/

/-- The guaranteed slot count as an integer floor. -/
theorem totalGuaranteedSlots_eq (limit : ℕ) :
    ((totalGuaranteedSlots limit : ℕ) : ℤ) = Int.floor ((limit : ℚ) * (7/10)) := by
  unfold totalGuaranteedSlots
  exact Int.toNat_of_nonneg (Int.floor_nonneg.mpr (by positivity))

/-- Per-topic ceilings overshoot by less than one slot each. -/
theorem quota_sum_le (limit : ℕ) :
    ∀ ta : List TopicInfo,
      (((ta.map (fun t => topicQuota limit t.weight)).sum : ℤ) : ℚ) ≤
        (totalGuaranteedSlots limit : ℚ) * ((ta.map (fun t => t.weight)).sum)
          + (ta.length : ℚ) := by
  intro ta
  induction ta with
  | nil => simp
  | cons a t ih =>
    simp only [List.map_cons, List.sum_cons, List.length_cons]
    have hceil : ((topicQuota limit a.weight : ℤ) : ℚ) ≤
        (totalGuaranteedSlots limit : ℚ) * a.weight + 1 := by
      unfold topicQuota
      have h := Int.ceil_lt_add_one ((totalGuaranteedSlots limit : ℚ) * a.weight)
      exact le_of_lt h
    push_cast at ih hceil ⊢
    nlinarith [ih, hceil]

/-- C5 amended: with weights in `[0, 1]` every per-topic quota
`ceil(floor(0.7·L) · w)` is individually at most `ceil(0.7·L)`, but the
quotas are rounded up per topic, so their SUM is bounded only by
`floor(0.7·L) · W + (number of topics)` — it can exceed `ceil(0.7·L)`. -/
theorem topic_quota_conservation_amended :
    ∀ (limit : ℕ) (topicAnalysis : List TopicInfo),
      (∀ t ∈ topicAnalysis, 0 ≤ t.weight ∧ t.weight ≤ 1) →
      (∀ t ∈ topicAnalysis, topicQuota limit t.weight ≤ Int.ceil ((7/10 : ℚ) * limit)) ∧
      ((((topicAnalysis.map (fun t => topicQuota limit t.weight)).sum : ℤ) : ℚ) ≤
        (totalGuaranteedSlots limit : ℚ) * ((topicAnalysis.map (fun t => t.weight)).sum)
          + (topicAnalysis.length : ℚ)) := by
  intro limit ta hw
  refine ⟨?_, quota_sum_le limit ta⟩
  intro t ht
  obtain ⟨h0, h1⟩ := hw t ht
  unfold topicQuota
  have hg : (0 : ℚ) ≤ (totalGuaranteedSlots limit : ℚ) := by positivity
  have hmul : (totalGuaranteedSlots limit : ℚ) * t.weight ≤ (totalGuaranteedSlots limit : ℚ) :=
    mul_le_of_le_one_right hg h1
  calc Int.ceil ((totalGuaranteedSlots limit : ℚ) * t.weight)
      ≤ Int.ceil ((totalGuaranteedSlots limit : ℚ)) := Int.ceil_le_ceil hmul
    _ = ((totalGuaranteedSlots limit : ℕ) : ℤ) := Int.ceil_natCast _
    _ = Int.floor ((limit : ℚ) * (7/10)) := totalGuaranteedSlots_eq limit
    _ ≤ Int.ceil ((limit : ℚ) * (7/10)) := Int.floor_le_ceil _
    _ = Int.ceil ((7/10 : ℚ) * limit) := by rw [mul_comm]

/-- Two topics of weight one half each (weights sum to 1). -/
def topicsHalf : List TopicInfo :=
  [{ topic := "A", weight := 1/2, required_info := ["facts"] },
   { topic := "B", weight := 1/2, required_info := ["facts"] }]

/-- The guaranteed pool at the default limit 20 is 14 slots; at limit 10 it
is 7 slots. -/
theorem totalGuaranteedSlots_10 : totalGuaranteedSlots 10 = 7 := by
  unfold totalGuaranteedSlots
  rw [show (((10 : ℕ) : ℚ)) * (7/10) = ((7 : ℤ) : ℚ) by norm_num, Int.floor_intCast]
  rfl

/-- Counterexample to C5 as stated: at `limit = 10` with two weight-`0.5`
topics (weights sum to `W = 1`), the per-topic quotas are `ceil(7·0.5) = 4`
each, so they sum to 8, exceeding `ceil(0.7·10) = 7`. -/
theorem quota_sum_exceeds_ceil :
    ((topicsHalf.map (fun t => t.weight)).sum = 1) ∧
    ((topicsHalf.map (fun t => topicQuota 10 t.weight)).sum = 8) ∧
    Int.ceil ((7/10 : ℚ) * 10) = 7 ∧
    ¬((8 : ℤ) ≤ 7) := by
  refine ⟨by norm_num [topicsHalf], ?_, ?_, by norm_num⟩
  · have hq : topicQuota 10 (1/2) = 4 := by
      unfold topicQuota
      rw [totalGuaranteedSlots_10]
      rw [show ((7 : ℕ) : ℚ) * (1/2) = 7/2 by norm_num]
      rw [Int.ceil_eq_iff]
      norm_num
    simp only [topicsHalf, List.map_cons, List.map_nil, List.sum_cons, List.sum_nil]
    rw [hq]
    norm_num
  · rw [show (7/10 : ℚ) * 10 = ((7 : ℤ) : ℚ) by norm_num, Int.ceil_intCast]

/-- Witness for C5 amended at `limit = 10` and the two weight-`0.5`
topics. -/
theorem topic_quota_conservation_amended_witness :
    topicQuota 10 (1/2) ≤ Int.ceil ((7/10 : ℚ) * 10) ∧
    ((((topicsHalf.map (fun t => topicQuota 10 t.weight)).sum : ℤ) : ℚ) ≤
      (totalGuaranteedSlots 10 : ℚ) * ((topicsHalf.map (fun t => t.weight)).sum)
        + (topicsHalf.length : ℚ)) := by
  have hw : ∀ t ∈ topicsHalf, 0 ≤ t.weight ∧ t.weight ≤ 1 := by
    intro t ht
    simp only [topicsHalf, List.mem_cons, List.mem_singleton] at ht
    rcases ht with h | h | h
    · subst h; norm_num
    · subst h; norm_num
    · cases h
  have main := topic_quota_conservation_amended 10 topicsHalf hw
  exact ⟨main.1 { topic := "A", weight := 1/2, required_info := ["facts"] }
    (by simp [topicsHalf]), main.2⟩

/-! ### C8 — fan-out isolation of sub-query failures -/

/-- Per-query contribution to the stage's total: failing calls contribute
zero, successful calls contribute their (tagging-preserved) source count. -/
theorem executeSearchWithLambda_count (backend : SearchQuery → Option SearchResult)
    (q : SearchQuery) :
    (((executeSearchWithLambda backend q).sources.getD []).length) =
      (match backend q with
       | some d => (d.sources.getD []).length
       | none => 0) := by
  unfold executeSearchWithLambda
  cases hb : backend q with
  | none => simp
  | some d => cases hs : d.sources <;> simp [hs]

/-- C8: the stage executor returns one result per query in order; a failing
sub-query yields exactly the empty result set (no propagated error), a
successful one yields all its tagged sources, and the stage total is the
sum of per-query counts where failed calls count zero. -/
theorem stage_isolates_subquery_failures :
    ∀ (backend : SearchQuery → Option SearchResult) (stage : SearchStage),
      ((executeSearchStage backend stage).results.length = stage.queries.length) ∧
      (∀ (i : ℕ) (h1 : i < (executeSearchStage backend stage).results.length)
          (h2 : i < stage.queries.length),
        (executeSearchStage backend stage).results.get ⟨i, h1⟩ =
          executeSearchWithLambda backend (stage.queries.get ⟨i, h2⟩)) ∧
      (∀ q, backend q = none →
        executeSearchWithLambda backend q =
          { query := q.query, summary := none, sources := some [] }) ∧
      (∀ q d, backend q = some d →
        (executeSearchWithLambda backend q).sources =
          d.sources.map (fun l => l.map (tagSource q))) ∧
      ((executeSearchStage backend stage).total_sources =
        (stage.queries.map (fun q =>
          match backend q with
          | some d => (d.sources.getD []).length
          | none => 0)).sum) := by
  intro backend stage
  refine ⟨by simp [executeSearchStage], ?_, ?_, ?_, ?_⟩
  · intro i h1 h2
    simp [executeSearchStage, List.get_eq_getElem, List.getElem_map]
  · intro q hq
    unfold executeSearchWithLambda
    rw [hq]
  · intro q d hq
    unfold executeSearchWithLambda
    rw [hq]
  · show ((stage.queries.map (executeSearchWithLambda backend)).foldl
      (fun sum result => sum + (result.sources.getD []).length) 0) = _
    rw [foldl_add_eq, Nat.zero_add, List.map_map]
    congr 1
    apply List.map_congr_left
    intro q _
    simpa [Function.comp] using executeSearchWithLambda_count backend q

/-- Three-query stage for the C8 scenario, middle query made to fail. -/
def querySuccessA : SearchQuery :=
  { query := "成功クエリA", language := "ja", search_depth := "basic",
    max_results := 5, rationale := "成功A" }

/-- The failing query of the C8 scenario. -/
def queryFailB : SearchQuery :=
  { query := "失敗クエリB", language := "ja", search_depth := "basic",
    max_results := 5, rationale := "失敗B" }

/-- The second successful query of the C8 scenario. -/
def querySuccessC : SearchQuery :=
  { query := "成功クエリC", language := "en", search_depth := "advanced",
    max_results := 8, rationale := "成功C" }

/-- Backend stub that fails `queryFailB`, returns two sources for
`querySuccessA` and one for anything else. -/
def backendPartial : SearchQuery → Option SearchResult := fun q =>
  if q.query == "失敗クエリB" then none
  else if q.query == "成功クエリA" then
    some { query := "成功クエリA", summary := some "要約A",
           sources := some [{ id := "a1", url := "https://example.com/sa1",
                              title := "A1", snippet := "内容A1", relevance_score := 1 },
                            { id := "a2", url := "https://example.com/sa2",
                              title := "A2", snippet := "内容A2", relevance_score := 0 }] }
  else
    some { query := q.query, summary := none,
           sources := some [{ id := "c1", url := "https://example.com/sc1",
                              title := "C1", snippet := "内容C1", relevance_score := 1 }] }

/-- The stage of the C8 scenario: three queries, one of which will fail. -/
def stagePartial : SearchStage :=
  { stage_name := "第1段階：基礎情報収集", description := "部分失敗シナリオ",
    queries := [querySuccessA, queryFailB, querySuccessC],
    execution_condition := "必須実行" }

/-- Witness for C8 in the spec's own scenario (3 queries, 1 failure): the
failing query degrades to the empty result set and the total counts only
the 2 + 1 sources of the successful calls. -/
theorem stage_isolates_subquery_failures_witness :
    backendPartial queryFailB = none ∧
    executeSearchWithLambda backendPartial queryFailB =
      { query := "失敗クエリB", summary := none, sources := some [] } ∧
    (executeSearchStage backendPartial stagePartial).results.length = 3 ∧
    (executeSearchStage backendPartial stagePartial).total_sources = 3 := by
  have hfail : backendPartial queryFailB = none := rfl
  have main := stage_isolates_subquery_failures backendPartial stagePartial
  refine ⟨hfail, main.2.2.1 queryFailB hfail, ?_, ?_⟩
  · rw [main.1]
    rfl
  · rw [main.2.2.2.2]
    rfl

/-! ### C9 — total heuristic credibility fallback -/

/-- Index-wise description of the full-fallback branch of the evaluation
merge. -/
theorem annotate_none_getElem? :
    ∀ (l : List SearchSource) (i : ℕ) (s : SearchSource),
      l[i]? = some s →
      (annotateSources none l)[i]? = some (fallbackAnnotate i s) := by
  intro l i s h
  simp [annotateSources, List.getElem?_map, List.getElem?_enum, h]

/-- Government-domain source for the heuristic comparison. -/
def srcGov : SearchSource :=
  { id := "g1", url := "https://www.example.gov/report", title := "公式報告",
    snippet := "政府資料", relevance_score := 1 }

/-- Blog-domain source for the heuristic comparison. -/
def srcBlog : SearchSource :=
  { id := "b1", url := "https://blog.example.com/post", title := "ブログ記事",
    snippet := "個人ブログ", relevance_score := 1 }

/-- C9: when no credibility JSON was extracted (`none`), every selected
source comes back annotated with the rule-based estimator's score — a total
function of the source's URL under which a government domain scores `0.9`,
above a blog domain's `0.4`. -/
theorem synthesis_fallback_total_heuristic :
    (∀ topSources : List SearchSource,
      (annotateSources none topSources).length = topSources.length ∧
      (∀ (i : ℕ) (s : SearchSource), topSources[i]? = some s →
        ((annotateSources none topSources)[i]?).map (fun t => t.credibility_score) =
          some (some (estimateCredibility s)))) ∧
    estimateCredibility srcGov = 9/10 ∧
    estimateCredibility srcBlog = 2/5 ∧
    ((2 : ℚ)/5 < 9/10) := by
  refine ⟨?_, ?_, ?_, by norm_num⟩
  · intro topSources
    constructor
    · simp [annotateSources]
    · intro i s h
      rw [annotate_none_getElem? topSources i s h]
      simp [fallbackAnnotate]
  · have hc : (strIncludes (strToLower srcGov.url) ".gov" ||
        strIncludes (strToLower srcGov.url) ".edu" ||
        strIncludes (strToLower srcGov.url) "official") = true := by decide
    simp [estimateCredibility, hc]
  · have h1 : (strIncludes (strToLower srcBlog.url) ".gov" ||
        strIncludes (strToLower srcBlog.url) ".edu" ||
        strIncludes (strToLower srcBlog.url) "official") = false := by decide
    have h2 : (strIncludes (strToLower srcBlog.url) "nature.com" ||
        strIncludes (strToLower srcBlog.url) "science." ||
        strIncludes (strToLower srcBlog.url) "ieee") = false := by decide
    have h3 : (strIncludes (strToLower srcBlog.url) "bbc.com" ||
        strIncludes (strToLower srcBlog.url) "reuters" ||
        strIncludes (strToLower srcBlog.url) "ap.org") = false := by decide
    have h4 : (strIncludes (strToLower srcBlog.url) "nikkei" ||
        strIncludes (strToLower srcBlog.url) "bloomberg" ||
        strIncludes (strToLower srcBlog.url) "wsj") = false := by decide
    have h5 : (strIncludes (strToLower srcBlog.url) "blog" ||
        strIncludes (strToLower srcBlog.url) "medium") = true := by decide
    simp [estimateCredibility, h1, h2, h3, h4, h5]

/-- Witness for C9 at a concrete two-source selection. -/
theorem synthesis_fallback_total_heuristic_witness :
    ([srcGov, srcBlog][0]? = some srcGov) ∧
    (((annotateSources none [srcGov, srcBlog])[0]?).map (fun t => t.credibility_score) =
      some (some (estimateCredibility srcGov))) := by
  have h : [srcGov, srcBlog][0]? = some srcGov := rfl
  exact ⟨h, (synthesis_fallback_total_heuristic.1 [srcGov, srcBlog]).2 0 srcGov h⟩

end RagSearch
